import Mathlib

/-!
Shallow embedding of `src/generator.py` (roku-playlist-generator).

The program builds an M3U playlist for Roku channels.  Pure string
manipulation (`format_extinf`, the URL rewrite, the sort keys) is embedded
directly; network effects (`requests` calls in `fetch_url` and
`get_roku_stream_url`) are embedded by passing the outcome of each network
round-trip as an explicit input, with `Except Unit` marking the places the
Python code can raise (any raised exception is observationally a single
failure there, so `Unit` carries no information loss for control flow).
Python strings are modelled as Lean `String` (a list of characters);
`str.isdigit`, `int()` and `str.lower` are modelled over ASCII, which covers
every value these claims and this catalog format exercise.
-/

namespace RokuGen

/-- A Python value that can sit in the catalog's `chno` field: `None`, an
`int`, or a `str`.  (`channel.get('chno')` yields `None` both for an absent
key and for an explicit JSON `null`; the absent-key case is tracked
separately by `Option` in `Channel`.) -/
inductive JVal where
  | null : JVal
  | jint (n : Int) : JVal
  | jstr (s : String) : JVal
deriving DecidableEq, Repr

/-- Python `str()` of such a value: `str(None) = "None"`, `str` of an int is
its decimal form with a leading minus for negatives, `str` of a string is
itself. -/
def pyStrJ : JVal → String
  | .null => "None"
  | .jint n => toString n
  | .jstr s => s

/-- Python `str.isdigit` (ASCII fragment): true iff the string is nonempty
and every character is a decimal digit.  Python returns `False` on the
empty string, hence the `!s.isEmpty` conjunct. -/
def pyIsdigit (s : String) : Bool :=
  !s.isEmpty && s.data.all Char.isDigit

/-- Value of a nonempty digit string read in base 10. -/
def digitsToNat (l : List Char) : Nat :=
  l.foldl (fun a c => a * 10 + (c.toNat - 48)) 0

/-- Digits-only parse helper for `int()`: fails on the empty string or any
non-digit character. -/
def parseDigits (l : List Char) : Option Nat :=
  if l.isEmpty then none
  else if l.all Char.isDigit then some (digitsToNat l) else none

/-- Surrounding whitespace stripped from a character list, as Python `int()`
does before parsing. -/
def stripWs (l : List Char) : List Char :=
  ((l.dropWhile Char.isWhitespace).reverse.dropWhile Char.isWhitespace).reverse

/-- Python `int(s)` on a string: surrounding whitespace is stripped, an
optional single sign is allowed, then a nonempty run of digits; anything
else raises `ValueError`, modelled as `none`. -/
def pyIntOfStr (s : String) : Option Int :=
  match stripWs s.data with
  | '-' :: rest => (parseDigits rest).map (fun n => -(n : Int))
  | '+' :: rest => (parseDigits rest).map (fun n => (n : Int))
  | l => (parseDigits l).map (fun n => (n : Int))

/-- Python `int(v)` on a catalog value: `int(None)` raises `TypeError`
(`none`), `int` of an int is itself, `int` of a string parses it. -/
def pyIntJ : JVal → Option Int
  | .null => none
  | .jint n => some n
  | .jstr s => pyIntOfStr s

/-- Python `s.replace(old, new)` for single characters: every occurrence of
`old` becomes `new`. -/
def replaceChar (old new : Char) (s : String) : String :=
  ⟨s.data.map (fun c => if c = old then new else c)⟩

/-- Python `s.replace(old, '')` for a single character: every occurrence of
`old` is deleted. -/
def removeChar (old : Char) (s : String) : String :=
  ⟨s.data.filter (fun c => c ≠ old)⟩

/-- `tvg_chno` rendering in `format_extinf`:
`str(tvg_chno) if tvg_chno is not None and str(tvg_chno).isdigit() else ""`. -/
def chno_str (tvg_chno : JVal) : String :=
  match tvg_chno with
  | .null => ""
  | v => if pyIsdigit (pyStrJ v) then pyStrJ v else ""

/-- `tvg_name.replace('"', "'") if tvg_name else ""` — the same expression
serves `tvg_name` and `group_title`.  A falsy string in Python is exactly
the empty string, and replacing in the empty string yields the empty
string, but the conditional is kept as written. -/
def sanitized_name (tvg_name : String) : String :=
  if tvg_name = "" then "" else replaceChar '"' '\'' tvg_name

/-- `display_name.replace(',', '') if display_name else ""`. -/
def sanitized_display (display_name : String) : String :=
  if display_name = "" then "" else removeChar ',' display_name

/-- The `#EXTINF` line without its terminating newline, exactly the
f-string of `format_extinf`. -/
def extinf_body (channel_id tvg_id : String) (tvg_chno : JVal)
    (tvg_name tvg_logo group_title display_name : String) : String :=
  "#EXTINF:-1 channel-id=\"" ++ channel_id ++
  "\" tvg-id=\"" ++ tvg_id ++
  "\" tvg-chno=\"" ++ chno_str tvg_chno ++
  "\" tvg-name=\"" ++ sanitized_name tvg_name ++
  "\" tvg-logo=\"" ++ tvg_logo ++
  "\" group-title=\"" ++ sanitized_name group_title ++ "\"," ++
  sanitized_display display_name

/-- `format_extinf` from `src/generator.py`: the metadata line, newline
terminated. -/
def format_extinf (channel_id tvg_id : String) (tvg_chno : JVal)
    (tvg_name tvg_logo group_title display_name : String) : String :=
  extinf_body channel_id tvg_id tvg_chno tvg_name tvg_logo group_title display_name ++ "\n"

/-- Does `pat` begin `l`?  (Helper for Python's `in` and `str.replace`.) -/
def hasPref : List Char → List Char → Bool
  | [], _ => true
  | _ :: _, [] => false
  | a :: as, b :: bs => a = b && hasPref as bs

/-- Does `pat` occur contiguously anywhere in `l`?  This is Python's
`pat in s` on strings. -/
def hasSub (pat : List Char) : List Char → Bool
  | [] => hasPref pat []
  | c :: cs => hasPref pat (c :: cs) || hasSub pat cs

/-- Python `pat in s`. -/
def pyIn (pat s : String) : Bool := hasSub pat.data s.data

/-- One fuel-indexed step list for Python `str.replace`: scan left to
right, replacing each non-overlapping occurrence of `pat` by `rep`.  Fuel
bounds the number of recursion steps; every step consumes at least one
character of `l`, so fuel `l.length` is always enough. -/
def replaceSubAux (pat rep : List Char) : Nat → List Char → List Char
  | 0, l => l
  | _ + 1, [] => []
  | fuel + 1, c :: cs =>
    if !pat.isEmpty && hasPref pat (c :: cs) then
      rep ++ replaceSubAux pat rep fuel ((c :: cs).drop pat.length)
    else
      c :: replaceSubAux pat rep fuel cs

/-- Python `s.replace(pat, rep)` for a nonempty pattern string. -/
def pyReplace (s pat rep : String) : String :=
  ⟨replaceSubAux pat.data rep.data s.data.length s.data⟩

/-! ### Stream URL Resolver (`get_roku_stream_url`)

The two network round-trips are passed in as data.  `root` is the outcome
of `session.get("https://therokuchannel.roku.com/")` together with the
optional `csrf-token` header (`Except.error` = the request raised).
`post` is the outcome of `session.post(playback_url, ...)`: either the
request raised, or it returned a status code and a body; reading the body
(`response.json()` and `playback_info.get('url', '')`, including a
non-string `url` value, which would make the later `in` test raise) either
raises or yields the optional string `url` field. -/

structure NetEnv where
  root : Except Unit (Option String)
  post : Except Unit (Nat × Except Unit (Option String))

/-- The fixed fallback template, with the channel identifier substituted. -/
def fallback_url (channel_id : String) : String :=
  "https://aka-live491.delivery.roku.com/" ++ channel_id ++ "/t2-origin/out/v1/live.m3u8"

/-- The URL transformation applied on the success path:
`if 'osm.sr.roku.com' in stream_url:` then two `str.replace` calls. -/
def transform_stream_url (stream_url : String) : String :=
  if pyIn "osm.sr.roku.com" stream_url then
    pyReplace
      (pyReplace stream_url "https://osm.sr.roku.com/" "https://aka-live491.delivery.roku.com/")
      "/live.m3u8" "/t2-origin/out/v1/live.m3u8"
  else stream_url

/-- `get_roku_stream_url` from `src/generator.py`.  The `try` block walks
the two round-trips; any raise (`Except.error`) lands in the `except`
handler, after which — like falling off the end of the `try` when the
status is not 200 — the fallback template is returned.  The csrf token only
feeds a request header, so it does not affect the returned value. -/
def get_roku_stream_url (env : NetEnv) (channel_id : String) : String :=
  match env.root with
  | .error _ => fallback_url channel_id
  | .ok _csrf_token =>
    match env.post with
    | .error _ => fallback_url channel_id
    | .ok (status_code, body) =>
      if status_code = 200 then
        match body with
        | .error _ => fallback_url channel_id
        | .ok urlField =>
          transform_stream_url (urlField.getD "")
      else fallback_url channel_id

/-! ### Playlist Builder (`generate_roku_playlist`)

The catalog is a JSON object; its `channels` member maps channel
identifiers to channel objects.  A Python dict is modelled as an
association list in insertion order (its native iteration order).  A field
whose key is absent is `Option.none`; `chno` may additionally hold an
explicit `null`/int/string (`JVal`).  The catalog fetch (`fetch_url`) is an
external collaborator, so its outcome is an input: `none` is the `None`
sentinel.  The sink (`write_m3u_file`) is likewise external: the function
returns the document it would write, or `none` when the build aborts
before writing. -/

structure Channel where
  chno : Option JVal := none
  name : Option String := none
  logo : Option String := none
  groups : List String := []
deriving DecidableEq

/-- Parsed catalog data: whether the top-level object has a `channels`
member, and the mapping if so.  `data.get('channels', {})` together with
the truthiness test `not data or 'channels' not in data` collapses to this:
the build proceeds exactly when the fetch produced data with a
`channels` key. -/
structure RokuData where
  channels : Option (List (String × Channel)) := none

def EPG_URL : String := "https://github.com/matthuisman/i.mjh.nz/raw/master/Roku/all.xml.gz"

/-- Header line `#EXTM3U url-tvg="..."` without its newline. -/
def header_body : String := "#EXTM3U url-tvg=\"" ++ EPG_URL ++ "\""

/-- The full header line as placed in `output_lines`. -/
def header_line : String := header_body ++ "\n"

/-- Sort key for `sort == 'chno'`:
`int(channels_to_process[k].get('chno', 99999))` — `none` when the `int()`
call raises. -/
def chnoKey (c : Channel) : Option Int :=
  match c.chno with
  | none => some 99999
  | some v => pyIntJ v

/-- `chnoKey` with a dummy default, used only where all keys are known to
be computable. -/
def chnoKeyD (c : Channel) : Int := (chnoKey c).getD 0

/-- Python `str.lower` (ASCII model, via `Char.toLower`). -/
def pyLower (s : String) : String := ⟨s.data.map Char.toLower⟩

/-- Sort key for the name branch:
`channels_to_process[k].get('name', '').lower()`. -/
def nameKey (c : Channel) : String := pyLower (c.name.getD "")

/-- Python `s <= t` on strings: lexicographic comparison of the character
sequences by code point (the `List Char` order). -/
def pyStrLe (s t : String) : Prop := s.data ≤ t.data

instance (s t : String) : Decidable (pyStrLe s t) :=
  inferInstanceAs (Decidable (s.data ≤ t.data))

/-- The `try: sorted(...) except: list(keys)` block of
`generate_roku_playlist`.  Python's `sorted` computes every key first (so
one failing `int()` fails the whole sort and the `except` branch keeps the
dict's native order) and then stable-sorts ascending; `List.insertionSort`
is stable, and a stable sort under a total preorder is unique, so it
computes the same list as Python's sort.  Sorting the (key, value) pairs
of the dict is the same as sorting the keys and indexing back into the
dict, since dict keys are unique. -/
def trySortPairs (sort : String) (channels_to_process : List (String × Channel)) :
    List (String × Channel) :=
  if sort = "chno" then
    if channels_to_process.all (fun p => (chnoKey p.2).isSome) then
      List.insertionSort (fun p q => chnoKeyD p.2 ≤ chnoKeyD q.2) channels_to_process
    else channels_to_process
  else
    List.insertionSort (fun p q => pyStrLe (nameKey p.2) (nameKey q.2)) channels_to_process

/-- `groups_list[0] if groups_list else 'Uncategorized'` with
`groups_list = channel.get('groups', [])`. -/
def group_title_of (c : Channel) : String :=
  match c.groups with
  | [] => "Uncategorized"
  | g :: _ => g

/-- The loop body of `generate_roku_playlist` for one channel: the two
lines appended to `output_lines` (`extinf` and `stream_url + '\n'`),
with the resolver passed in as a function of the channel identifier. -/
def channelEntry (resolve : String → String) (p : String × Channel) : String :=
  let channel_id := p.1
  let channel := p.2
  let chno := channel.chno.getD JVal.null
  let name := channel.name.getD "Unknown Channel"
  let logo := channel.logo.getD ""
  format_extinf channel_id channel_id chno name logo (group_title_of channel) name ++
    resolve channel_id ++ "\n"

/-- `generate_roku_playlist` from `src/generator.py`.  `data` is the
result of `fetch_url(ROKU_URL, ...)`; `resolve` stands for
`get_roku_stream_url` (applied to whatever network outcomes each call
sees).  Returns the text handed to `write_m3u_file`, or `none` when the
guard `if not data or 'channels' not in data` aborts the build. -/
def generate_roku_playlist (sort : String) (data : Option RokuData)
    (resolve : String → String) : Option String :=
  match data with
  | none => none
  | some d =>
    match d.channels with
    | none => none
    | some channels_to_process =>
      let sorted_pairs := trySortPairs sort channels_to_process
      some (header_line ++ String.join (sorted_pairs.map (channelEntry resolve)))

/-- The call `generate_roku_playlist()` with the parameter left at its
declared default `sort='chno'`. -/
def generate_roku_playlist_default (data : Option RokuData)
    (resolve : String → String) : Option String :=
  generate_roku_playlist "chno" data resolve

/-- The suffix of a character list strictly after its last comma (the whole
list if it has no comma). -/
def afterLastComma (l : List Char) : List Char :=
  (l.reverse.takeWhile (fun c => c ≠ ',')).reverse

/-- Reassemble newline-free lines into a document: every line is
terminated by a newline.  A document equal to `unlines ls` with each
member of `ls` newline-free consists of exactly the lines `ls`. -/
def unlines (ls : List (List Char)) : List Char :=
  (ls.map (fun l => l ++ ['\n'])).flatten

/-- The metadata line (without its newline) that `generate_roku_playlist`
builds for one catalog entry: `format_extinf(channel_id, tvg_id=channel_id,
chno, name, logo, group_title, name)`. -/
def meta_line_of (p : String × Channel) : String :=
  extinf_body p.1 p.1 (p.2.chno.getD JVal.null) (p.2.name.getD "Unknown Channel")
    (p.2.logo.getD "") (group_title_of p.2) (p.2.name.getD "Unknown Channel")

/-- The newline-delimited lines of the document built for a catalog: the
header, then per channel (in sorted order) its metadata line and its
stream-URL line. -/
def doc_lines (sort : String) (cat : List (String × Channel))
    (resolve : String → String) : List (List Char) :=
  header_body.data ::
    (trySortPairs sort cat).flatMap (fun p => [(meta_line_of p).data, (resolve p.1).data])

/-- The spec's end-to-end catalog: one channel with complete metadata, one
missing `chno`, `logo` and `groups`. -/
def c7cat : List (String × Channel) :=
  [("one", { chno := some (.jint 5), name := some "Channel One",
             logo := some "http://logo/1.png", groups := ["News"] }),
   ("two", { name := some "Channel Two" })]

/-! ### Sanity checks: the embedded Python primitives behave as in CPython -/

theorem sanity_pyIsdigit :
    pyIsdigit "" = false ∧ pyIsdigit "123" = true ∧ pyIsdigit "12a" = false ∧
    pyIsdigit "None" = false := by decide

theorem sanity_pyIntOfStr :
    pyIntOfStr " 42 " = some 42 ∧ pyIntOfStr "-7" = some (-7) ∧ pyIntOfStr "x7" = none ∧
    pyIntOfStr "" = none ∧ pyIntOfStr "+" = none := by decide

theorem sanity_replaceChar :
    replaceChar '"' '\'' "a\"b\"" = "a'b'" ∧ removeChar ',' "a,b,c" = "abc" := by decide

theorem sanity_pyIn : pyIn "osm" "xosmy" = true ∧ pyIn "osm" "os" = false := by decide

theorem sanity_pyReplace : pyReplace "ababa" "ab" "c" = "cca" := by decide

theorem sanity_transform_stream_url :
    transform_stream_url "https://osm.sr.roku.com/ch1/live.m3u8" =
      "https://aka-live491.delivery.roku.com/ch1/t2-origin/out/v1/live.m3u8" ∧
    transform_stream_url "https://other.example.com/live.m3u8" =
      "https://other.example.com/live.m3u8" := by decide

/-! ### Helper lemmas -/

theorem takeWhile_append_stop {P : Char → Bool} {a : Char} :
    ∀ (l r : List Char), (∀ c ∈ l, P c = true) → P a = false →
      (l ++ a :: r).takeWhile P = l := by
  intro l r hl ha
  induction l with
  | nil => simp [List.takeWhile, ha]
  | cons c cs ih =>
    have hc : P c = true := hl c (List.mem_cons_self c cs)
    simp only [List.cons_append, List.takeWhile_cons, hc, if_true]
    rw [ih (fun x hx => hl x (List.mem_cons_of_mem c hx))]

theorem afterLastComma_append (p t : List Char) (h : ∀ c ∈ t, c ≠ ',') :
    afterLastComma (p ++ ',' :: t) = t := by
  unfold afterLastComma
  rw [List.reverse_append, List.reverse_cons, List.append_assoc, List.singleton_append]
  rw [takeWhile_append_stop t.reverse (p.reverse)
    (fun c hc => by
      have := h c (List.mem_reverse.mp hc)
      simpa using this)
    (by simp)]
  exact List.reverse_reverse t

theorem sanitized_name_no_quote (s : String) :
    '"' ∉ (sanitized_name s).data := by
  unfold sanitized_name
  by_cases hs : s = ""
  · simp [hs]
  · simp only [hs, if_false, replaceChar]
    intro hmem
    rcases List.mem_map.mp hmem with ⟨c, _, hc⟩
    by_cases hq : c = '"'
    · rw [if_pos hq] at hc
      exact absurd hc (by decide)
    · rw [if_neg hq] at hc
      exact hq hc

theorem sanitized_display_no_comma (s : String) :
    ∀ c ∈ (sanitized_display s).data, c ≠ ',' := by
  unfold sanitized_display
  by_cases hs : s = ""
  · simp [hs]
  · simp only [hs, if_false, removeChar]
    intro c hc
    have := List.of_mem_filter hc
    simpa using this

theorem chno_str_of_not_digits {v : JVal} (h : pyIsdigit (pyStrJ v) = false) :
    chno_str v = "" := by
  cases v with
  | null => rfl
  | jint n => simp [chno_str, h]
  | jstr s => simp [chno_str, h]

theorem chno_str_of_digits {v : JVal} (h : pyIsdigit (pyStrJ v) = true) :
    chno_str v = pyStrJ v := by
  cases v with
  | null => exact absurd h (by decide)
  | jint n => simp [chno_str, h]
  | jstr s => simp [chno_str, h]

theorem count_nl_unlines :
    ∀ ls : List (List Char), (∀ l ∈ ls, '\n' ∉ l) →
      (unlines ls).count '\n' = ls.length := by
  intro ls h
  induction ls with
  | nil => rfl
  | cons l rest ih =>
    have hl : '\n' ∉ l := h l (List.mem_cons_self l rest)
    have hcl : l.count '\n' = 0 := List.count_eq_zero.mpr hl
    simp only [unlines, List.map_cons, List.flatten_cons, List.count_append]
    rw [hcl]
    have := ih (fun x hx => h x (List.mem_cons_of_mem l hx))
    simp only [unlines] at this
    rw [this]
    simp [List.count_cons]
    omega

theorem trySortPairs_perm (sort : String) (cat : List (String × Channel)) :
    (trySortPairs sort cat).Perm cat := by
  unfold trySortPairs
  by_cases h : sort = "chno"
  · rw [if_pos h]
    by_cases hall : cat.all (fun p => (chnoKey p.2).isSome) = true
    · rw [if_pos hall]
      exact List.perm_insertionSort _ cat
    · rw [if_neg hall]
  · rw [if_neg h]
    exact List.perm_insertionSort _ cat

theorem sanitized_name_no_nl (s : String) (h : '\n' ∉ s.data) :
    '\n' ∉ (sanitized_name s).data := by
  unfold sanitized_name
  by_cases hs : s = ""
  · simp [hs]
  · simp only [hs, if_false, replaceChar]
    intro hmem
    rcases List.mem_map.mp hmem with ⟨c, hc, hceq⟩
    by_cases hq : c = '"'
    · rw [if_pos hq] at hceq
      exact absurd hceq (by decide)
    · rw [if_neg hq] at hceq
      exact h (hceq ▸ hc)

theorem sanitized_display_no_nl (s : String) (h : '\n' ∉ s.data) :
    '\n' ∉ (sanitized_display s).data := by
  unfold sanitized_display
  by_cases hs : s = ""
  · simp [hs]
  · simp only [hs, if_false, removeChar]
    intro hmem
    exact h (List.mem_of_mem_filter hmem)

theorem chno_str_no_nl (v : JVal) (h : '\n' ∉ (pyStrJ v).data) :
    '\n' ∉ (chno_str v).data := by
  cases v with
  | null => simp [chno_str]
  | jint n =>
    unfold chno_str
    by_cases hd : pyIsdigit (pyStrJ (.jint n)) = true
    · simpa [hd] using h
    · simp only [Bool.not_eq_true] at hd
      simp [hd]
  | jstr s =>
    unfold chno_str
    by_cases hd : pyIsdigit (pyStrJ (.jstr s)) = true
    · simpa [hd] using h
    · simp only [Bool.not_eq_true] at hd
      simp [hd]

theorem extinf_body_no_nl (channel_id tvg_id : String) (v : JVal)
    (tvg_name tvg_logo group_title display_name : String)
    (hc : '\n' ∉ channel_id.data) (ht : '\n' ∉ tvg_id.data)
    (hv : '\n' ∉ (pyStrJ v).data) (hn : '\n' ∉ tvg_name.data)
    (hl : '\n' ∉ tvg_logo.data) (hg : '\n' ∉ group_title.data)
    (hd : '\n' ∉ display_name.data) :
    '\n' ∉ (extinf_body channel_id tvg_id v tvg_name tvg_logo group_title display_name).data := by
  intro hmem
  simp only [extinf_body, String.data_append, List.mem_append] at hmem
  rcases hmem with
    ((((((((((((h | h) | h) | h) | h) | h) | h) | h) | h) | h) | h) | h) | h) | h
  · exact absurd h (by decide)
  · exact hc h
  · exact absurd h (by decide)
  · exact ht h
  · exact absurd h (by decide)
  · exact chno_str_no_nl v hv h
  · exact absurd h (by decide)
  · exact sanitized_name_no_nl tvg_name hn h
  · exact absurd h (by decide)
  · exact hl h
  · exact absurd h (by decide)
  · exact sanitized_name_no_nl group_title hg h
  · exact absurd h (by decide)
  · exact sanitized_display_no_nl display_name hd h

/-! ### Claim theorems -/

/-- C5: for every channel-number input whose string form is not composed
entirely of digits (including `None`, the empty string, and alphanumeric
strings), `format_extinf` renders the `tvg-chno` attribute with an empty
value; when the string form is entirely digits, the attribute carries that
string. -/
theorem c5_chno_attribute (channel_id tvg_id : String) (tvg_chno : JVal)
    (tvg_name tvg_logo group_title display_name : String) :
    (pyIsdigit (pyStrJ tvg_chno) = false →
      format_extinf channel_id tvg_id tvg_chno tvg_name tvg_logo group_title display_name =
        "#EXTINF:-1 channel-id=\"" ++ channel_id ++
        "\" tvg-id=\"" ++ tvg_id ++
        "\" tvg-chno=\"" ++ "" ++
        "\" tvg-name=\"" ++ sanitized_name tvg_name ++
        "\" tvg-logo=\"" ++ tvg_logo ++
        "\" group-title=\"" ++ sanitized_name group_title ++ "\"," ++
        sanitized_display display_name ++ "\n") ∧
    (pyIsdigit (pyStrJ tvg_chno) = true →
      format_extinf channel_id tvg_id tvg_chno tvg_name tvg_logo group_title display_name =
        "#EXTINF:-1 channel-id=\"" ++ channel_id ++
        "\" tvg-id=\"" ++ tvg_id ++
        "\" tvg-chno=\"" ++ pyStrJ tvg_chno ++
        "\" tvg-name=\"" ++ sanitized_name tvg_name ++
        "\" tvg-logo=\"" ++ tvg_logo ++
        "\" group-title=\"" ++ sanitized_name group_title ++ "\"," ++
        sanitized_display display_name ++ "\n") := by
  constructor
  · intro h
    unfold format_extinf extinf_body
    rw [chno_str_of_not_digits h]
  · intro h
    unfold format_extinf extinf_body
    rw [chno_str_of_digits h]

/-- Witness for C5: the alphanumeric channel number `"12a"` renders as an
empty `tvg-chno` value, and the integer `7` renders as `"7"`. -/
theorem c5_chno_attribute_witness :
    (pyIsdigit (pyStrJ (.jstr "12a")) = false ∧
      format_extinf "id1" "id1" (.jstr "12a") "Nm" "L" "G" "Nm" =
        "#EXTINF:-1 channel-id=\"" ++ "id1" ++
        "\" tvg-id=\"" ++ "id1" ++
        "\" tvg-chno=\"" ++ "" ++
        "\" tvg-name=\"" ++ sanitized_name "Nm" ++
        "\" tvg-logo=\"" ++ "L" ++
        "\" group-title=\"" ++ sanitized_name "G" ++ "\"," ++
        sanitized_display "Nm" ++ "\n") ∧
    (pyIsdigit (pyStrJ (.jint 7)) = true ∧
      format_extinf "id1" "id1" (.jint 7) "Nm" "L" "G" "Nm" =
        "#EXTINF:-1 channel-id=\"" ++ "id1" ++
        "\" tvg-id=\"" ++ "id1" ++
        "\" tvg-chno=\"" ++ pyStrJ (.jint 7) ++
        "\" tvg-name=\"" ++ sanitized_name "Nm" ++
        "\" tvg-logo=\"" ++ "L" ++
        "\" group-title=\"" ++ sanitized_name "G" ++ "\"," ++
        sanitized_display "Nm" ++ "\n") :=
  ⟨⟨by decide, (c5_chno_attribute "id1" "id1" (.jstr "12a") "Nm" "L" "G" "Nm").1 (by decide)⟩,
   ⟨by decide, (c5_chno_attribute "id1" "id1" (.jint 7) "Nm" "L" "G" "Nm").2 (by decide)⟩⟩

/-- C6: for every name and group-title value, `format_extinf` renders the
attribute with each double quote replaced by a single quote (so the
rendered attribute value contains no double quote), and the rendered
display-text segment after the final comma of the line is exactly the
display name with all commas removed (followed by the terminating newline),
so it contains no comma. -/
theorem c6_sanitization (channel_id tvg_id : String) (tvg_chno : JVal)
    (tvg_name tvg_logo group_title display_name : String) :
    format_extinf channel_id tvg_id tvg_chno tvg_name tvg_logo group_title display_name =
      "#EXTINF:-1 channel-id=\"" ++ channel_id ++
      "\" tvg-id=\"" ++ tvg_id ++
      "\" tvg-chno=\"" ++ chno_str tvg_chno ++
      "\" tvg-name=\"" ++ sanitized_name tvg_name ++
      "\" tvg-logo=\"" ++ tvg_logo ++
      "\" group-title=\"" ++ sanitized_name group_title ++ "\"," ++
      sanitized_display display_name ++ "\n" ∧
    '"' ∉ (sanitized_name tvg_name).data ∧
    '"' ∉ (sanitized_name group_title).data ∧
    afterLastComma
        (format_extinf channel_id tvg_id tvg_chno tvg_name tvg_logo group_title display_name).data =
      (sanitized_display display_name).data ++ ['\n'] ∧
    ∀ c ∈ (sanitized_display display_name).data ++ ['\n'], c ≠ ',' := by
  have htail : ∀ c ∈ (sanitized_display display_name).data ++ ['\n'], c ≠ ',' := by
    intro c hc
    rcases List.mem_append.mp hc with hl | hr
    · exact sanitized_display_no_comma display_name c hl
    · simp only [List.mem_singleton] at hr
      rw [hr]
      decide
  refine ⟨rfl, sanitized_name_no_quote _, sanitized_name_no_quote _, ?_, htail⟩
  have hq : ("\"," : String).data = ['"', ','] := rfl
  have hn : ("\n" : String).data = ['\n'] := rfl
  have hsplit :
      (format_extinf channel_id tvg_id tvg_chno tvg_name tvg_logo group_title display_name).data =
        ("#EXTINF:-1 channel-id=\"" ++ channel_id ++
         "\" tvg-id=\"" ++ tvg_id ++
         "\" tvg-chno=\"" ++ chno_str tvg_chno ++
         "\" tvg-name=\"" ++ sanitized_name tvg_name ++
         "\" tvg-logo=\"" ++ tvg_logo ++
         "\" group-title=\"" ++ sanitized_name group_title ++ "\"").data ++
          ',' :: ((sanitized_display display_name).data ++ ['\n']) := by
    simp [format_extinf, extinf_body, hq, hn]
  rw [hsplit, afterLastComma_append _ _ htail]

theorem fallback_url_ne_empty (channel_id : String) : fallback_url channel_id ≠ "" := by
  intro heq
  have hd := congrArg String.data heq
  simp only [fallback_url, String.data_append] at hd
  rcases List.append_eq_nil.mp hd with ⟨hd1, _⟩
  rcases List.append_eq_nil.mp hd1 with ⟨hd2, _⟩
  exact absurd hd2 (by decide)

/-- C1: for every channel identifier, if stream resolution fails at any
step (an exception during session establishment, negotiation, or response
parsing, or a non-successful negotiation status), `get_roku_stream_url`
returns exactly the fixed fallback template URL with that channel
identifier substituted in — it never raises (it is a total function) and
never returns an empty string on failure. -/
theorem c1_resolver_fallback_total (env : NetEnv) (channel_id : String)
    (h : env.root = .error () ∨ env.post = .error () ∨
      ∃ status body, env.post = .ok (status, body) ∧ (status ≠ 200 ∨ body = .error ())) :
    get_roku_stream_url env channel_id = fallback_url channel_id ∧
    get_roku_stream_url env channel_id ≠ "" ∧
    fallback_url channel_id =
      "https://aka-live491.delivery.roku.com/" ++ channel_id ++ "/t2-origin/out/v1/live.m3u8" := by
  have heq : get_roku_stream_url env channel_id = fallback_url channel_id := by
    rcases h with hroot | hpost | ⟨status, body, hpost, hsb⟩
    · simp [get_roku_stream_url, hroot]
    · cases hr : env.root with
      | error e => simp [get_roku_stream_url, hr]
      | ok tok => simp [get_roku_stream_url, hr, hpost]
    · cases hr : env.root with
      | error e => simp [get_roku_stream_url, hr]
      | ok tok =>
        rcases hsb with hs | hb
        · simp [get_roku_stream_url, hr, hpost, hs]
        · by_cases hst : status = 200 <;>
            simp [get_roku_stream_url, hr, hpost, hb, hst]
  exact ⟨heq, heq ▸ fallback_url_ne_empty channel_id, rfl⟩

/-- Witness for C1: with the playback negotiation raising a network error,
the resolver for channel `abc` yields the fallback template. -/
theorem c1_resolver_fallback_total_witness :
    ((⟨.ok none, .error ()⟩ : NetEnv).root = .error () ∨
      (⟨.ok none, .error ()⟩ : NetEnv).post = .error () ∨
      ∃ status body, (⟨.ok none, .error ()⟩ : NetEnv).post = .ok (status, body) ∧
        (status ≠ 200 ∨ body = .error ())) ∧
    (get_roku_stream_url ⟨.ok none, .error ()⟩ "abc" = fallback_url "abc" ∧
      get_roku_stream_url ⟨.ok none, .error ()⟩ "abc" ≠ "" ∧
      fallback_url "abc" =
        "https://aka-live491.delivery.roku.com/" ++ "abc" ++ "/t2-origin/out/v1/live.m3u8") :=
  ⟨Or.inr (Or.inl rfl),
   c1_resolver_fallback_total ⟨.ok none, .error ()⟩ "abc" (Or.inr (Or.inl rfl))⟩

/-- Counterexample to C2: a successfully negotiated URL whose host is
`cdn.example.com` — not the origin-storage domain — still contains
`osm.sr.roku.com` in its path, so the code rewrites its `/live.m3u8`
suffix instead of returning it unchanged. -/
theorem c2_counterexample :
    get_roku_stream_url
        ⟨.ok none, .ok (200, .ok (some "https://cdn.example.com/osm.sr.roku.com/live.m3u8"))⟩
        "x" =
      "https://cdn.example.com/osm.sr.roku.com/t2-origin/out/v1/live.m3u8" ∧
    get_roku_stream_url
        ⟨.ok none, .ok (200, .ok (some "https://cdn.example.com/osm.sr.roku.com/live.m3u8"))⟩
        "x" ≠
      "https://cdn.example.com/osm.sr.roku.com/live.m3u8" := by
  constructor
  · decide
  · decide

/-- C2 amended: the URL-rewrite step is applied if and only if the
returned URL contains `osm.sr.roku.com` as a substring (not an exact host
match); a URL without that substring anywhere is returned unchanged, and
when the substring occurs, every occurrence of the origin-storage prefix
`https://osm.sr.roku.com/` is replaced by the edge prefix and every
occurrence of the suffix `/live.m3u8` by its edge equivalent. -/
theorem c2_rewrite_on_substring (tok : Option String) (urlField : Option String) (cid : String) :
    (pyIn "osm.sr.roku.com" (urlField.getD "") = false →
      get_roku_stream_url ⟨.ok tok, .ok (200, .ok urlField)⟩ cid = urlField.getD "") ∧
    (pyIn "osm.sr.roku.com" (urlField.getD "") = true →
      get_roku_stream_url ⟨.ok tok, .ok (200, .ok urlField)⟩ cid =
        pyReplace
          (pyReplace (urlField.getD "")
            "https://osm.sr.roku.com/" "https://aka-live491.delivery.roku.com/")
          "/live.m3u8" "/t2-origin/out/v1/live.m3u8") := by
  constructor <;> intro h <;>
    simp [get_roku_stream_url, transform_stream_url, h]

/-- Witness for C2 amended: a URL on another domain without the substring
is returned unchanged; the canonical origin-storage URL is rewritten to
the edge form. -/
theorem c2_rewrite_on_substring_witness :
    (pyIn "osm.sr.roku.com" ((some "https://other.example.com/live.m3u8").getD "") = false ∧
      get_roku_stream_url
          ⟨.ok none, .ok (200, .ok (some "https://other.example.com/live.m3u8"))⟩ "x" =
        (some "https://other.example.com/live.m3u8").getD "") ∧
    (pyIn "osm.sr.roku.com" ((some "https://osm.sr.roku.com/ch1/live.m3u8").getD "") = true ∧
      get_roku_stream_url
          ⟨.ok none, .ok (200, .ok (some "https://osm.sr.roku.com/ch1/live.m3u8"))⟩ "x" =
        pyReplace
          (pyReplace ((some "https://osm.sr.roku.com/ch1/live.m3u8").getD "")
            "https://osm.sr.roku.com/" "https://aka-live491.delivery.roku.com/")
          "/live.m3u8" "/t2-origin/out/v1/live.m3u8") :=
  ⟨⟨by decide,
    (c2_rewrite_on_substring none (some "https://other.example.com/live.m3u8") "x").1 (by decide)⟩,
   ⟨by decide,
    (c2_rewrite_on_substring none (some "https://osm.sr.roku.com/ch1/live.m3u8") "x").2 (by decide)⟩⟩

/-- Counterexample to C3: in the claim's own catalog
`{A: chno=5, B: chno=None, C: chno=1}` (with `chno` present and `None` on
`B`), `int(None)` raises, the whole sort fails, and the build keeps the
native order `A, B, C` — not `C, A, B` with `B` last. -/
theorem c3_counterexample :
    (trySortPairs "chno"
        [("A", { chno := some (.jint 5) }), ("B", { chno := some .null }),
         ("C", { chno := some (.jint 1) })]).map Prod.fst = ["A", "B", "C"] ∧
    (trySortPairs "chno"
        [("A", { chno := some (.jint 5) }), ("B", { chno := some .null }),
         ("C", { chno := some (.jint 1) })]).map Prod.fst ≠ ["C", "A", "B"] := by
  constructor
  · decide
  · decide

/-- C3 amended: when the sort mode is channel-number and every present
`chno` value converts under `int()` (an absent `chno` key contributes the
sentinel 99999), the channels are a permutation of the catalog ordered by
ascending key, so channels lacking a `chno` key come after all channels
with keys below 99999; in particular `{A: chno=5, B: no chno, C: chno=1}`
yields `C, A, B`.  If some present `chno` value does not convert (e.g. an
explicit `None`), the sort raises and the build falls back to native
order. -/
theorem c3_chno_sort (cat : List (String × Channel))
    (h : ∀ p ∈ cat, (chnoKey p.2).isSome) :
    (trySortPairs "chno" cat).Perm cat ∧
    List.Pairwise (fun p q => chnoKeyD p.2 ≤ chnoKeyD q.2) (trySortPairs "chno" cat) ∧
    (trySortPairs "chno"
        [("A", { chno := some (.jint 5) }), ("B", {}), ("C", { chno := some (.jint 1) })]).map
      Prod.fst = ["C", "A", "B"] := by
  haveI htot : IsTotal (String × Channel) (fun p q => chnoKeyD p.2 ≤ chnoKeyD q.2) :=
    ⟨fun a b => le_total _ _⟩
  haveI htr : IsTrans (String × Channel) (fun p q => chnoKeyD p.2 ≤ chnoKeyD q.2) :=
    ⟨fun a b c hab hbc => le_trans hab hbc⟩
  have hall : cat.all (fun p => (chnoKey p.2).isSome) = true :=
    List.all_eq_true.mpr (fun p hp => h p hp)
  refine ⟨?_, ?_, by decide⟩
  · simp only [trySortPairs, if_pos rfl, hall, if_true]
    exact List.perm_insertionSort _ cat
  · simp only [trySortPairs, if_pos rfl, hall, if_true]
    exact List.sorted_insertionSort (fun p q => chnoKeyD p.2 ≤ chnoKeyD q.2) cat

/-- Witness for C3 amended: the catalog `{A: chno=5, B: absent, C: chno=1}`
satisfies the convertibility hypothesis and sorts as `C, A, B`. -/
theorem c3_chno_sort_witness :
    (∀ p ∈ ([("A", { chno := some (.jint 5) }), ("B", {}),
        ("C", { chno := some (.jint 1) })] : List (String × Channel)),
      (chnoKey p.2).isSome) ∧
    ((trySortPairs "chno"
        [("A", { chno := some (.jint 5) }), ("B", {}),
         ("C", { chno := some (.jint 1) })]).Perm
      [("A", { chno := some (.jint 5) }), ("B", {}), ("C", { chno := some (.jint 1) })] ∧
    List.Pairwise (fun p q => chnoKeyD p.2 ≤ chnoKeyD q.2)
      (trySortPairs "chno"
        [("A", { chno := some (.jint 5) }), ("B", {}), ("C", { chno := some (.jint 1) })]) ∧
    (trySortPairs "chno"
        [("A", { chno := some (.jint 5) }), ("B", {}), ("C", { chno := some (.jint 1) })]).map
      Prod.fst = ["C", "A", "B"]) :=
  ⟨by decide,
   c3_chno_sort
     [("A", { chno := some (.jint 5) }), ("B", {}), ("C", { chno := some (.jint 1) })]
     (by decide)⟩

/-- Counterexample to C4: the sort mode is matched case-sensitively, so
`sort='CHNO'` does not select channel-number ordering; on a catalog where
the two orders differ it produces the name order `B, A`, not the claimed
channel-number order `A, B`. -/
theorem c4_counterexample :
    (trySortPairs "CHNO"
        [("A", { chno := some (.jint 1), name := some "zeta" }),
         ("B", { chno := some (.jint 2), name := some "alpha" })]).map Prod.fst = ["B", "A"] ∧
    (trySortPairs "CHNO"
        [("A", { chno := some (.jint 1), name := some "zeta" }),
         ("B", { chno := some (.jint 2), name := some "alpha" })]).map Prod.fst ≠ ["A", "B"] := by
  constructor
  · decide
  · decide

/-- C4 amended: the sort mode selects channel-number order only on the
exact (case-sensitive) string `chno`; every other value yields name-based
ordering, which is case-insensitive ascending on the lowered display name
(`{"zeta", "Alpha"}` sorts as `Alpha, zeta`, and `{"Zeta", "alpha"}` as
`alpha, Zeta`).  The parameter default is `'chno'`, i.e. channel-number
ordering, not name ordering. -/
theorem c4_sort_mode (cat : List (String × Channel)) (sort : String) (h : sort ≠ "chno") :
    (trySortPairs sort cat).Perm cat ∧
    List.Pairwise (fun p q => pyStrLe (nameKey p.2) (nameKey q.2)) (trySortPairs sort cat) ∧
    (∀ data resolve,
      generate_roku_playlist_default data resolve = generate_roku_playlist "chno" data resolve) ∧
    (trySortPairs "name"
        [("A", { name := some "zeta" }), ("B", { name := some "Alpha" })]).map Prod.fst =
      ["B", "A"] ∧
    (trySortPairs "name"
        [("A", { name := some "Zeta" }), ("B", { name := some "alpha" })]).map Prod.fst =
      ["B", "A"] := by
  haveI htot : IsTotal (String × Channel) (fun p q => pyStrLe (nameKey p.2) (nameKey q.2)) :=
    ⟨fun a b => le_total (nameKey a.2).data (nameKey b.2).data⟩
  haveI htr : IsTrans (String × Channel) (fun p q => pyStrLe (nameKey p.2) (nameKey q.2)) :=
    ⟨fun a b c hab hbc => le_trans (α := List Char) hab hbc⟩
  refine ⟨?_, ?_, fun _ _ => rfl, by decide, by decide⟩
  · simp only [trySortPairs, if_neg h]
    exact List.perm_insertionSort _ cat
  · simp only [trySortPairs, if_neg h]
    exact List.sorted_insertionSort (fun p q => pyStrLe (nameKey p.2) (nameKey q.2)) cat

/-- Witness for C4 amended: instantiated at sort mode `name` on the
claim's two-channel example. -/
theorem c4_sort_mode_witness :
    ("name" : String) ≠ "chno" ∧
    ((trySortPairs "name"
        [("A", { name := some "zeta" }), ("B", { name := some "Alpha" })]).Perm
      [("A", { name := some "zeta" }), ("B", { name := some "Alpha" })] ∧
    List.Pairwise (fun p q => pyStrLe (nameKey p.2) (nameKey q.2))
      (trySortPairs "name" [("A", { name := some "zeta" }), ("B", { name := some "Alpha" })]) ∧
    (∀ data resolve,
      generate_roku_playlist_default data resolve = generate_roku_playlist "chno" data resolve) ∧
    (trySortPairs "name"
        [("A", { name := some "zeta" }), ("B", { name := some "Alpha" })]).map Prod.fst =
      ["B", "A"] ∧
    (trySortPairs "name"
        [("A", { name := some "Zeta" }), ("B", { name := some "alpha" })]).map Prod.fst =
      ["B", "A"]) :=
  ⟨by decide,
   c4_sort_mode [("A", { name := some "zeta" }), ("B", { name := some "Alpha" })] "name"
     (by decide)⟩

/-- C8: if fetching or parsing the catalog fails (the fetch returns the
no-data sentinel, or the parsed data has no `channels` mapping),
`generate_roku_playlist` returns without writing any output and without
raising to the caller.  (The diagnostic log line is an effect of the
external logging collaborator and is not modelled.) -/
theorem c8_catalog_unavailable (sort : String) (data : Option RokuData)
    (resolve : String → String)
    (h : data = none ∨ ∃ d, data = some d ∧ d.channels = none) :
    generate_roku_playlist sort data resolve = none := by
  rcases h with hnone | ⟨d, hd, hch⟩
  · rw [hnone]
    rfl
  · rw [hd]
    simp [generate_roku_playlist, hch]

/-- Witness for C8: the no-data sentinel aborts the build. -/
theorem c8_catalog_unavailable_witness :
    ((none : Option RokuData) = none ∨
      ∃ d, (none : Option RokuData) = some d ∧ d.channels = none) ∧
    generate_roku_playlist "chno" none (fun _ => "") = none :=
  ⟨Or.inl rfl, c8_catalog_unavailable "chno" none (fun _ => "") (Or.inl rfl)⟩

/-- C9: if computing the channel-number sort order raises (some present
`chno` fails `int()` conversion), `generate_roku_playlist` falls back to
the catalog's native iteration order over the same channels and still
builds the complete document.  (The warning log line is an effect of the
external logging collaborator and is not modelled.) -/
theorem c9_sort_failure_fallback (cat : List (String × Channel)) (resolve : String → String)
    (h : ∃ p ∈ cat, chnoKey p.2 = none) :
    trySortPairs "chno" cat = cat ∧
    generate_roku_playlist "chno" (some { channels := some cat }) resolve =
      some (header_line ++ String.join (cat.map (channelEntry resolve))) := by
  have hall : cat.all (fun p => (chnoKey p.2).isSome) = false := by
    rw [Bool.eq_false_iff]
    intro hc
    rcases h with ⟨p, hp, hk⟩
    have := List.all_eq_true.mp hc p hp
    rw [hk] at this
    exact absurd this (by decide)
  have hts : trySortPairs "chno" cat = cat := by
    simp [trySortPairs, hall]
  exact ⟨hts, by simp [generate_roku_playlist, hts]⟩

/-- Witness for C9: a catalog whose only channel carries `chno=None`
fails key extraction, keeps native order, and the build completes. -/
theorem c9_sort_failure_fallback_witness :
    (∃ p ∈ ([("B", { chno := some .null })] : List (String × Channel)), chnoKey p.2 = none) ∧
    (trySortPairs "chno" [("B", { chno := some .null })] = [("B", { chno := some .null })] ∧
      generate_roku_playlist "chno" (some { channels := some [("B", { chno := some .null })] })
          (fun _ => "u") =
        some (header_line ++
          String.join ([("B", { chno := some .null })].map (channelEntry (fun _ => "u"))))) :=
  ⟨⟨("B", { chno := some .null }), by decide⟩,
   c9_sort_failure_fallback [("B", { chno := some .null })] (fun _ => "u")
     ⟨("B", { chno := some .null }), by decide⟩⟩

/-- C10: a catalog that parses successfully and contains an empty
`channels` mapping does not abort the build: the document written is
exactly the single header line and nothing else. -/
theorem c10_empty_channels (sort : String) (resolve : String → String) :
    generate_roku_playlist sort (some { channels := some [] }) resolve = some header_line := by
  have hj : String.join ([] : List String) = "" := rfl
  have ha : header_line ++ "" = header_line := by
    apply String.ext
    simp [String.data_append]
  by_cases h : sort = "chno" <;>
    simp [generate_roku_playlist, trySortPairs, h, hj, ha]

theorem flatMap_pair_length (l : List (String × Channel))
    (f g : String × Channel → List Char) :
    (l.flatMap fun p => [f p, g p]).length = 2 * l.length := by
  induction l with
  | nil => rfl
  | cons p rest ih =>
    simp only [List.flatMap_cons, List.length_append, List.length_cons, ih]
    simp [Nat.mul_add, Nat.add_comm]

theorem entries_data_eq (resolve : String → String) :
    ∀ l : List (String × Channel),
      ((l.map (channelEntry resolve)).map String.data).flatten =
        ((l.flatMap fun p => [(meta_line_of p).data, (resolve p.1).data]).map
          (fun x => x ++ ['\n'])).flatten := by
  intro l
  induction l with
  | nil => rfl
  | cons p rest ih =>
    have hn : ("\n" : String).data = ['\n'] := rfl
    simp only [List.map_cons, List.flatten_cons, List.flatMap_cons, List.map_append,
      List.flatten_append]
    rw [← ih]
    simp [channelEntry, format_extinf, meta_line_of, String.data_append, hn,
      List.append_assoc]

set_option maxRecDepth 8192 in
/-- Counterexample to C7: a catalog of one channel whose display name
contains a newline produces a document with five newline characters (the
name's newline survives sanitization into both the `tvg-name` attribute
and the display text), so it cannot be decomposed into the claimed
`1 + 2·1 = 3` newline-terminated lines. -/
theorem c7_counterexample :
    (generate_roku_playlist "name"
        (some { channels := some [("id1", { name := some "A\nB" })] })
        (fun _ => "u")).map (fun s => s.data.count '\n') = some 5 ∧
    ¬ ∃ l0 l1 l2 : List Char, ('\n' ∉ l0 ∧ '\n' ∉ l1 ∧ '\n' ∉ l2) ∧
      generate_roku_playlist "name"
          (some { channels := some [("id1", { name := some "A\nB" })] })
          (fun _ => "u") =
        some ⟨unlines [l0, l1, l2]⟩ := by
  have h4 : (generate_roku_playlist "name"
      (some { channels := some [("id1", { name := some "A\nB" })] })
      (fun _ => "u")).map (fun s => s.data.count '\n') = some 5 := by decide
  refine ⟨h4, ?_⟩
  rintro ⟨l0, l1, l2, ⟨h0, h1, h2⟩, heq⟩
  rw [heq] at h4
  simp only [Option.map, Option.some.injEq] at h4
  have hc : (unlines [l0, l1, l2]).count '\n' = 3 := by
    apply count_nl_unlines
    intro l hl
    simp only [List.mem_cons, List.not_mem_nil, or_false] at hl
    rcases hl with h | h | h
    · rw [h]
      exact h0
    · rw [h]
      exact h1
    · rw [h]
      exact h2
  omega

/-- C7 amended: provided no catalog field's rendered string form and no
resolved URL contains a newline character, the produced document is
exactly the `unlines` of one header line followed by, per channel in
sorted order, one metadata line and one URL line — `1 + 2N` newline-free
lines, each therefore terminated by exactly one newline — and every
metadata line carries the six attributes `channel-id`, `tvg-id`,
`tvg-chno`, `tvg-name`, `tvg-logo`, `group-title` in exactly that order.
Without the no-newline hypotheses the line count can exceed `1 + 2N` (see
the counterexample). -/
theorem c7_document_shape (sort : String) (cat : List (String × Channel))
    (resolve : String → String)
    (hfields : ∀ p ∈ cat, '\n' ∉ p.1.data ∧
      '\n' ∉ (pyStrJ (p.2.chno.getD JVal.null)).data ∧
      '\n' ∉ (p.2.name.getD "Unknown Channel").data ∧
      '\n' ∉ (p.2.logo.getD "").data ∧
      '\n' ∉ (group_title_of p.2).data)
    (hres : ∀ p ∈ cat, '\n' ∉ (resolve p.1).data) :
    generate_roku_playlist sort (some { channels := some cat }) resolve =
      some ⟨unlines (doc_lines sort cat resolve)⟩ ∧
    (doc_lines sort cat resolve).length = 1 + 2 * cat.length ∧
    (∀ l ∈ doc_lines sort cat resolve, '\n' ∉ l) ∧
    ∀ p ∈ trySortPairs sort cat,
      meta_line_of p =
        "#EXTINF:-1 channel-id=\"" ++ p.1 ++
        "\" tvg-id=\"" ++ p.1 ++
        "\" tvg-chno=\"" ++ chno_str (p.2.chno.getD JVal.null) ++
        "\" tvg-name=\"" ++ sanitized_name (p.2.name.getD "Unknown Channel") ++
        "\" tvg-logo=\"" ++ p.2.logo.getD "" ++
        "\" group-title=\"" ++ sanitized_name (group_title_of p.2) ++ "\"," ++
        sanitized_display (p.2.name.getD "Unknown Channel") := by
  have hperm := trySortPairs_perm sort cat
  refine ⟨?_, ?_, ?_, fun p _ => rfl⟩
  · have hred : generate_roku_playlist sort (some { channels := some cat }) resolve =
        some (header_line ++ String.join ((trySortPairs sort cat).map (channelEntry resolve))) :=
      rfl
    rw [hred]
    apply congrArg some
    apply String.ext
    show (header_line ++ String.join ((trySortPairs sort cat).map (channelEntry resolve))).data =
      unlines (doc_lines sort cat resolve)
    have hn : ("\n" : String).data = ['\n'] := rfl
    simp only [unlines, doc_lines, List.map_cons, List.flatten_cons, String.data_append,
      String.data_join, header_line, hn]
    rw [entries_data_eq resolve (trySortPairs sort cat)]
  · simp only [doc_lines, List.length_cons, flatMap_pair_length, hperm.length_eq]
    omega
  · intro l hl
    rcases List.mem_cons.mp hl with h0 | hflat
    · rw [h0]
      decide
    · rcases List.mem_flatMap.mp hflat with ⟨p, hp, hin⟩
      have hpc : p ∈ cat := hperm.mem_iff.mp hp
      rcases hfields p hpc with ⟨h1, h2, h3, h4, h5⟩
      simp only [List.mem_cons, List.not_mem_nil, or_false] at hin
      rcases hin with hm | hu
      · rw [hm]
        exact extinf_body_no_nl p.1 p.1 _ _ _ _ _ h1 h1 h2 h3 h4 h5 h3
      · rw [hu]
        exact hres p hpc

/-- Witness for C7 amended: the end-to-end catalog of two channels with a
resolver that always yields the fallback template produces one header line
plus `2 × 2` record lines, all newline-free before their terminators. -/
theorem c7_document_shape_witness :
    (∀ p ∈ c7cat, '\n' ∉ p.1.data ∧
      '\n' ∉ (pyStrJ (p.2.chno.getD JVal.null)).data ∧
      '\n' ∉ (p.2.name.getD "Unknown Channel").data ∧
      '\n' ∉ (p.2.logo.getD "").data ∧
      '\n' ∉ (group_title_of p.2).data) ∧
    (∀ p ∈ c7cat, '\n' ∉ (fallback_url p.1).data) ∧
    (generate_roku_playlist "name" (some { channels := some c7cat }) fallback_url =
      some ⟨unlines (doc_lines "name" c7cat fallback_url)⟩ ∧
    (doc_lines "name" c7cat fallback_url).length = 1 + 2 * c7cat.length ∧
    (∀ l ∈ doc_lines "name" c7cat fallback_url, '\n' ∉ l) ∧
    ∀ p ∈ trySortPairs "name" c7cat,
      meta_line_of p =
        "#EXTINF:-1 channel-id=\"" ++ p.1 ++
        "\" tvg-id=\"" ++ p.1 ++
        "\" tvg-chno=\"" ++ chno_str (p.2.chno.getD JVal.null) ++
        "\" tvg-name=\"" ++ sanitized_name (p.2.name.getD "Unknown Channel") ++
        "\" tvg-logo=\"" ++ p.2.logo.getD "" ++
        "\" group-title=\"" ++ sanitized_name (group_title_of p.2) ++ "\"," ++
        sanitized_display (p.2.name.getD "Unknown Channel")) :=
  ⟨by decide, by decide,
   c7_document_shape "name" c7cat fallback_url (by decide) (by decide)⟩

end RokuGen
